import Mathlib

/-!
Verification of the selective-clearing subsystem of a layered 2D costmap
(`nav2_costmap_2d/src/clear_costmap_service.cpp`).

The service code is embedded shallowly:
* world coordinates and cost geometry use exact rationals (`ℚ`);
* a robot orientation is represented by the pair (cos yaw, sin yaw) so that
  the standard planar rotation stays inside `ℚ`;
* the pose source (`Costmap2DROS::getRobotPose`, reached through
  `getPosition` and directly from `clearLayerExceptRegion`) is an oracle
  `ℕ → Option Pose` indexed by the number of pose queries an operation has
  already issued, so that a later query may fail even when an earlier one
  succeeded;
* the grid-engine primitives that live outside this translation unit
  (`worldToMapEnforceBounds`, `addExtraBounds`, `setConvexPolygonCost`,
  `resetLayers`) are modelled from the specification's description of their
  interface; `clearArea`, whose complement semantics the specification leaves
  to the external grid engine, is kept as an explicit parameter acting on the
  cell array only.
-/

namespace ClearCostmap

/-- A 2D world-frame point (exact rational coordinates). -/
structure Point where
  x : ℚ
  y : ℚ
deriving DecidableEq, Repr

/-- A robot pose: position plus orientation, the latter carried as the
cosine and sine of the yaw angle so rotation is exact. -/
structure Pose where
  x : ℚ
  y : ℚ
  cosYaw : ℚ
  sinYaw : ℚ
deriving DecidableEq, Repr

/-- A cost grid: origin of cell (0,0) in world coordinates, resolution
(meters per cell), dimensions in cells, the default (reset) cost value and
the cell contents. -/
structure Grid where
  originX : ℚ
  originY : ℚ
  resolution : ℚ
  sizeX : ℕ
  sizeY : ℕ
  defaultValue : ℕ
  cells : ℕ → ℕ → ℕ

/-- A world-frame axis-aligned rectangle, used for dirty bounds. -/
structure Rect where
  minX : ℚ
  minY : ℚ
  maxX : ℚ
  maxY : ℚ
deriving DecidableEq, Repr

/-- One named layer of the stack: its own grid plus its tracked dirty
(extra) bounds; `none` means no extra bounds have been recorded yet. -/
structure Layer where
  name : List Char
  grid : Grid
  bounds : Option Rect

/-- The state a clear operation acts on: the combined (master) costmap
returned by `Costmap2DROS::getCostmap`, and the ordered plugin layer
stack returned by `LayeredCostmap::getPlugins`. -/
structure CostmapState where
  master : Grid
  layers : List Layer

/-- Construction-time configuration of `ClearCostmapService`: the reset
value (read from the master grid's default value) and the
`clearable_layers` parameter. -/
structure Config where
  resetValue : ℕ
  clearableLayers : List (List Char)

/-- Grid width in meters (cells times resolution). -/
def Grid.sizeInMetersX (g : Grid) : ℚ := g.sizeX * g.resolution

/-- Grid height in meters (cells times resolution). -/
def Grid.sizeInMetersY (g : Grid) : ℚ := g.sizeY * g.resolution

/-- World x-coordinate of the center of cell column `i`. -/
def Grid.cellCenterX (g : Grid) (i : ℕ) : ℚ := g.originX + (i + 1 / 2) * g.resolution

/-- World y-coordinate of the center of cell row `j`. -/
def Grid.cellCenterY (g : Grid) (j : ℕ) : ℚ := g.originY + (j + 1 / 2) * g.resolution

/-- The full world-frame extent of a layer: origin to origin plus size in
meters, exactly the rectangle `clearLayerExceptRegion` hands to
`addExtraBounds`. -/
def Layer.fullExtent (l : Layer) : Rect :=
  ⟨l.grid.originX, l.grid.originY,
   l.grid.originX + l.grid.sizeInMetersX, l.grid.originY + l.grid.sizeInMetersY⟩

/-- `ClearCostmapService::getLayerName`: the substring after the last
slash of the layer's name when one occurs (`rfind` plus `substr`), the
whole name otherwise. -/
def getLayerName (name : List Char) : List Char :=
  if ('/' ∈ name) then (name.reverse.takeWhile (fun c => c != '/')).reverse else name

/-- The part of a name strictly before its last slash (companion of
`getLayerName`, used to state that the kept segment is a suffix). -/
def beforeLastSlash (name : List Char) : List Char :=
  ((name.reverse.dropWhile (fun c => c != '/')).tail).reverse

/-- `ClearCostmapService::isClearable`: the trailing name occurs in the
configured `clearable_layers` list (`count(...) != 0`). -/
def isClearable (cfg : Config) (layerName : List Char) : Bool :=
  cfg.clearableLayers.count layerName != 0

/-- Modelled from the spec: `rotatePoint` (declared in the service header,
not part of this translation unit) is the standard counter-clockwise
rotation of a point about the pivot (px, py) by the yaw angle, here given
through its cosine `c` and sine `s`. -/
def rotatePoint (px py c s : ℚ) (pt : Point) : Point :=
  ⟨px + c * (pt.x - px) - s * (pt.y - py),
   py + s * (pt.x - px) + c * (pt.y - py)⟩

/-- The four pre-rotation corners of the preserved region built by
`clearLayerExceptRegion`: the two rear corners use `±half_dist` in both
axes, the two forward corners use the literal x-offset 0.259. -/
def exceptRegionCorners (px py resetDistance : ℚ) : List Point :=
  let halfDist := resetDistance / 2
  [⟨px - halfDist, py - halfDist⟩,
   ⟨px + 259 / 1000, py - halfDist⟩,
   ⟨px + 259 / 1000, py + halfDist⟩,
   ⟨px - halfDist, py + halfDist⟩]

/-- Modelled from the spec: `Costmap2D::worldToMapEnforceBounds` (the
spec's `worldToGridClamped`) converts a world point to cell indices using
origin and resolution and clamps out-of-range points to the nearest
boundary cell. -/
def worldToMapEnforceBounds (g : Grid) (wx wy : ℚ) : Int × Int :=
  (max 0 (min ⌊(wx - g.originX) / g.resolution⌋ ((g.sizeX : Int) - 1)),
   max 0 (min ⌊(wy - g.originY) / g.resolution⌋ ((g.sizeY : Int) - 1)))

/-- Modelled from the spec: `CostmapLayer::addExtraBounds` grows the
layer's dirty bounds monotonically by union with the given rectangle. -/
def addExtraBounds : Option Rect → Rect → Option Rect
  | none, r => some r
  | some b, r =>
      some ⟨min b.minX r.minX, min b.minY r.minY, max b.maxX r.maxX, max b.maxY r.maxY⟩

/-- Minimum of a list of rationals (0 on the empty list; the polygons the
service builds are never empty). -/
def listMin : List ℚ → ℚ
  | [] => 0
  | x :: xs => xs.foldl min x

/-- Maximum of a list of rationals (0 on the empty list). -/
def listMax : List ℚ → ℚ
  | [] => 0
  | x :: xs => xs.foldl max x

/-- Modelled from the spec: `Costmap2D::setConvexPolygonCost` sets every
cell enclosed by the polygon to the given value. Every polygon this
service passes to it is an axis-aligned rectangle, for which enclosure is
membership of the cell center in the corners' bounding box. -/
def setConvexPolygonCost (g : Grid) (poly : List Point) (v : ℕ) : Grid :=
  let xs := poly.map Point.x
  let ys := poly.map Point.y
  { g with cells := fun i j =>
      if listMin xs ≤ g.cellCenterX i ∧ g.cellCenterX i ≤ listMax xs ∧
         listMin ys ≤ g.cellCenterY j ∧ g.cellCenterY j ≤ listMax ys
      then v else g.cells i j }

/-- The type of the external `CostmapLayer::clearArea` primitive: it
rewrites the cell array given the polygon's grid-space corners. Its
internal semantics are left to the grid engine, so the whole development
is parametric in it. -/
def ClearAreaImpl : Type := (ℕ → ℕ → ℕ) → List Point → (ℕ → ℕ → ℕ)

/-- `ClearCostmapService::clearLayerExceptRegion` acting on one layer:
re-query the pose (the `freshPose` argument carries that query's result;
on failure the layer is returned untouched), build the preserved-region
corners from the position fetched at operation start, rotate them by the
freshly queried yaw, clamp them into the grid, invoke `clearArea`, and
extend the dirty bounds to the full layer extent. -/
def clearLayerExceptRegion (clearArea : ClearAreaImpl) (l : Layer)
    (px py resetDistance : ℚ) (freshPose : Option Pose) : Layer :=
  match freshPose with
  | none => l
  | some p =>
      let corners := exceptRegionCorners px py resetDistance
      let rotated := corners.map (rotatePoint px py p.cosYaw p.sinYaw)
      let mapCorners := rotated.map (fun c =>
        let mc := worldToMapEnforceBounds l.grid c.x c.y
        Point.mk (mc.1 : ℚ) (mc.2 : ℚ))
      { l with
        grid := { l.grid with cells := clearArea l.grid.cells mapCorners },
        bounds := addExtraBounds l.bounds l.fullExtent }

/-- The per-layer loop of `clearExceptRegion`: walk the plugin stack in
order; a clearable layer (trailing name in the allow-list) is handed to
`clearLayerExceptRegion` together with the next pose-oracle answer, any
other layer is passed through untouched. `n` is the index of the next
pose query. -/
def processLayers (clearArea : ClearAreaImpl) (oracle : ℕ → Option Pose)
    (cfg : Config) (px py resetDistance : ℚ) : ℕ → List Layer → List Layer
  | _, [] => []
  | n, l :: ls =>
      if isClearable cfg (getLayerName l.name)
      then clearLayerExceptRegion clearArea l px py resetDistance (oracle n) ::
           processLayers clearArea oracle cfg px py resetDistance (n + 1) ls
      else l :: processLayers clearArea oracle cfg px py resetDistance n ls

/-- `ClearCostmapService::clearExceptRegion`: fetch the robot position
(pose query 0); on failure log an error and change nothing (the Boolean
component reports the pose-unavailable error); on success run the
per-layer loop, whose pose re-queries are numbered from 1. -/
def clearExceptRegion (clearArea : ClearAreaImpl) (oracle : ℕ → Option Pose)
    (cfg : Config) (resetDistance : ℚ) (s : CostmapState) : CostmapState × Bool :=
  match oracle 0 with
  | none => (s, true)
  | some p =>
      ({ s with layers := processLayers clearArea oracle cfg p.x p.y resetDistance 1 s.layers },
       false)

/-- The axis-aligned clearing rectangle of `clearAroundRobot`, listed in
the order the code pushes the corners. It is built from the position
only; no orientation enters. -/
def aroundRobotPoly (px py windowSizeX windowSizeY : ℚ) : List Point :=
  [⟨px - windowSizeX / 2, py - windowSizeY / 2⟩,
   ⟨px + windowSizeX / 2, py - windowSizeY / 2⟩,
   ⟨px + windowSizeX / 2, py + windowSizeY / 2⟩,
   ⟨px - windowSizeX / 2, py + windowSizeY / 2⟩]

/-- `ClearCostmapService::clearAroundRobot`: fetch the robot position; on
failure log an error and change nothing (Boolean error flag); on success
set every master-costmap cell inside the window rectangle to the
configured reset value via `setConvexPolygonCost`. The plugin layers are
not visited. -/
def clearAroundRobot (oracle : ℕ → Option Pose) (cfg : Config)
    (windowSizeX windowSizeY : ℚ) (s : CostmapState) : CostmapState × Bool :=
  match oracle 0 with
  | none => (s, true)
  | some p =>
      let poly := aroundRobotPoly p.x p.y windowSizeX windowSizeY
      ({ s with master := setConvexPolygonCost s.master poly cfg.resetValue }, false)

/-- Reset every cell of a grid to its default value. -/
def Grid.resetAll (g : Grid) : Grid := { g with cells := fun _ _ => g.defaultValue }

/-- `ClearCostmapService::clearEntirely`: under the stack-wide lock,
delegate to `Costmap2DROS::resetLayers`. Modelled from the spec: the full
reset sets every cell of the master grid and of every layer to its own
default value. No pose is consulted. -/
def clearEntirely (s : CostmapState) : CostmapState :=
  { master := s.master.resetAll,
    layers := s.layers.map (fun l => { l with grid := l.grid.resetAll }) }

/-- `ClearCostmapService::clearAroundRobotCallback`: a zero window size in
either axis redirects the request to `clearEntirely` (no error reported);
otherwise the request runs `clearAroundRobot`. -/
def clearAroundRobotCallback (oracle : ℕ → Option Pose) (cfg : Config)
    (windowSizeX windowSizeY : ℚ) (s : CostmapState) : CostmapState × Bool :=
  if windowSizeX = 0 ∨ windowSizeY = 0 then (clearEntirely s, false)
  else clearAroundRobot oracle cfg windowSizeX windowSizeY s

/-- `ClearCostmapService::clearEntireCallback`: always runs
`clearEntirely`, never reports an error. -/
def clearEntireCallback (s : CostmapState) : CostmapState × Bool :=
  (clearEntirely s, false)

/-- Number of clearable layers in a list (how many pose re-queries the
per-layer loop issues while traversing it). -/
def clearableCount (cfg : Config) (ls : List Layer) : ℕ :=
  (ls.filter (fun l => isClearable cfg (getLayerName l.name))).length

/-- Containment of one rectangle in another. -/
def Rect.within (inner outer : Rect) : Prop :=
  outer.minX ≤ inner.minX ∧ outer.minY ≤ inner.minY ∧
  inner.maxX ≤ outer.maxX ∧ inner.maxY ≤ outer.maxY

section Fixtures

/-- A concrete 2 by 2 grid with unit resolution, origin at the world
origin, default value 0 and all cells holding cost 5. -/
def exGrid : Grid :=
  { originX := 0, originY := 0, resolution := 1, sizeX := 2, sizeY := 2,
    defaultValue := 0, cells := fun _ _ => 5 }

/-- A concrete pose at the origin with yaw 0. -/
def exPose : Pose := ⟨0, 0, 1, 0⟩

/-- A pose oracle whose every query succeeds with `exPose`. -/
def exOracleSome : ℕ → Option Pose := fun _ => some exPose

/-- A pose oracle whose every query fails. -/
def exOracleNone : ℕ → Option Pose := fun _ => none

/-- A pose oracle that answers the initial query (index 0) but fails
every per-layer re-query. -/
def exOracleFailRecheck : ℕ → Option Pose := fun n => if n = 0 then some exPose else none

/-- A clearable layer named obs. -/
def exLayerObstacles : Layer :=
  { name := ['o', 'b', 's'], grid := exGrid, bounds := none }

/-- A non-clearable layer named sta. -/
def exLayerStatic : Layer :=
  { name := ['s', 't', 'a'], grid := exGrid, bounds := none }

/-- A configuration whose allow-list holds exactly the name obs. -/
def exCfg : Config := { resetValue := 0, clearableLayers := [['o', 'b', 's']] }

/-- A configuration with an empty allow-list. -/
def exCfgEmpty : Config := { resetValue := 0, clearableLayers := [] }

/-- A concrete state with one clearable and one non-clearable layer. -/
def exState : CostmapState := { master := exGrid, layers := [exLayerObstacles, exLayerStatic] }

/-- A concrete state with no plugin layers at all. -/
def exStateNoLayers : CostmapState := { master := exGrid, layers := [] }

/-- A trivial instance of the external `clearArea` primitive, used to
instantiate parametric statements on concrete inputs. -/
def exClearArea : ClearAreaImpl := fun cells _ => cells

end Fixtures

lemma processLayers_length (clearArea : ClearAreaImpl) (oracle : ℕ → Option Pose)
    (cfg : Config) (px py d : ℚ) :
    ∀ (ls : List Layer) (n : ℕ),
      (processLayers clearArea oracle cfg px py d n ls).length = ls.length := by
  intro ls
  induction ls with
  | nil => intro n; rfl
  | cons l ls ih =>
      intro n
      by_cases h : isClearable cfg (getLayerName l.name) = true
      · simp [processLayers, h, ih]
      · simp [processLayers, h, ih]

lemma clearableCount_nil (cfg : Config) : clearableCount cfg [] = 0 := rfl

lemma clearableCount_cons (cfg : Config) (l : Layer) (ls : List Layer) :
    clearableCount cfg (l :: ls) =
      (if isClearable cfg (getLayerName l.name) then 1 else 0) + clearableCount cfg ls := by
  by_cases h : isClearable cfg (getLayerName l.name) = true <;>
    simp [clearableCount, List.filter_cons, h, Nat.add_comm]

lemma clearLayerExceptRegion_none (clearArea : ClearAreaImpl) (l : Layer)
    (px py d : ℚ) : clearLayerExceptRegion clearArea l px py d none = l := rfl

lemma processLayers_getElem (clearArea : ClearAreaImpl) (oracle : ℕ → Option Pose)
    (cfg : Config) (px py d : ℚ) :
    ∀ (ls : List Layer) (n i : ℕ),
      (processLayers clearArea oracle cfg px py d n ls)[i]? =
        (ls[i]?).map (fun l =>
          if isClearable cfg (getLayerName l.name)
          then clearLayerExceptRegion clearArea l px py d
                 (oracle (n + clearableCount cfg (ls.take i)))
          else l) := by
  intro ls
  induction ls with
  | nil => intro n i; simp [processLayers]
  | cons l ls ih =>
      intro n i
      by_cases h : isClearable cfg (getLayerName l.name) = true
      · cases i with
        | zero => simp [processLayers, h, clearableCount]
        | succ i =>
            simp [processLayers, h, List.take_succ_cons, clearableCount_cons, ih,
              Nat.add_assoc]
      · cases i with
        | zero => simp [processLayers, h, clearableCount]
        | succ i =>
            simp [processLayers, h, List.take_succ_cons, clearableCount_cons, ih]

lemma dropWhile_slash_cons (l : List Char) (h : '/' ∈ l) :
    ∃ d, l.dropWhile (fun c => c != '/') = '/' :: d := by
  induction l with
  | nil => cases h
  | cons c rest ih =>
      by_cases hc : c = '/'
      · subst hc
        exact ⟨rest, by simp [List.dropWhile_cons]⟩
      · have hr : '/' ∈ rest := by
          rcases List.mem_cons.mp h with h1 | h1
          · exact absurd h1.symm hc
          · exact h1
        obtain ⟨d, hd⟩ := ih hr
        exact ⟨d, by simp [List.dropWhile_cons, bne_iff_ne, hc, hd]⟩

/-- C3: for pose (0,0) with yaw 0 and resetDistance 2, the four
pre-rotation corners of the preserved region built by the ExceptRegion
path are exactly (-1,-1), (0.259,-1), (0.259,1), (-1,1): the rear corners
use ±half_dist = ±1 in both axes and the forward corners use the fixed
literal x-offset 0.259 in place of half_dist. -/
theorem exceptRegionCorners_fixed_point :
    exceptRegionCorners 0 0 2 =
      [⟨-1, -1⟩, ⟨259 / 1000, -1⟩, ⟨259 / 1000, 1⟩, ⟨-1, 1⟩] := by
  simp only [exceptRegionCorners]
  norm_num

/-- C4: a ClearAroundRobot request with a zero window size in either axis
is redirected to the full clearEntirely path, with no error reported, and
produces a state identical to a ClearEntireCostmap request. -/
theorem clearAroundRobotCallback_zero_window (oracle : ℕ → Option Pose) (cfg : Config)
    (windowSizeX windowSizeY : ℚ) (s : CostmapState)
    (h : windowSizeX = 0 ∨ windowSizeY = 0) :
    clearAroundRobotCallback oracle cfg windowSizeX windowSizeY s = clearEntireCallback s := by
  unfold clearAroundRobotCallback clearEntireCallback
  rw [if_pos h]

/-- Witness for C4 at window size (0, 3) on a concrete state. -/
theorem clearAroundRobotCallback_zero_window_witness :
    clearAroundRobotCallback exOracleSome exCfg 0 3 exState = clearEntireCallback exState :=
  clearAroundRobotCallback_zero_window exOracleSome exCfg 0 3 exState (Or.inl rfl)

/-- C2, counterexample: `clearEntirely` never consults the pose source
(its embedding does not even take the pose oracle), and in a world where
every pose query fails it still resets every layer cell: both layers of
`exState` go from cost 5 to cost 0. So the claim that all three
operations abort with no mutation when the pose is unavailable is false
for clearEntirely. -/
theorem clearEntirely_mutates_despite_pose_failure :
    exOracleNone 0 = none ∧
    (clearEntirely exState).layers.map (fun l => l.grid.cells 0 0) = [0, 0] ∧
    exState.layers.map (fun l => l.grid.cells 0 0) = [5, 5] :=
  ⟨rfl, rfl, rfl⟩

/-- C2, amended: `clearExceptRegion` and `clearAroundRobot` require a
valid robot pose first; if the initial pose query fails, each returns the
state unchanged and reports the pose-unavailable error. -/
theorem poseFail_aborts_without_mutation (clearArea : ClearAreaImpl)
    (oracle : ℕ → Option Pose) (cfg : Config) (d windowSizeX windowSizeY : ℚ)
    (s : CostmapState) (h : oracle 0 = none) :
    clearExceptRegion clearArea oracle cfg d s = (s, true) ∧
    clearAroundRobot oracle cfg windowSizeX windowSizeY s = (s, true) := by
  constructor
  · unfold clearExceptRegion; rw [h]
  · unfold clearAroundRobot; rw [h]

/-- Witness for the amended C2 on a concrete state with a failing oracle. -/
theorem poseFail_aborts_without_mutation_witness :
    clearExceptRegion exClearArea exOracleNone exCfg 2 exState = (exState, true) ∧
    clearAroundRobot exOracleNone exCfg 3 3 exState = (exState, true) :=
  poseFail_aborts_without_mutation exClearArea exOracleNone exCfg 2 3 3 exState rfl

/-- C1, counterexample: `clearAroundRobot` does not iterate the plugin
layers at all; it mutates the combined master costmap. With an empty
allow-list and no plugin layers whatsoever, it still rewrites master cell
(0,0) from 5 to the reset value 0, so it does not leave everything
outside the allow-listed layers unchanged. -/
theorem clearAroundRobot_mutates_master :
    exCfgEmpty.clearableLayers = [] ∧ exStateNoLayers.layers = [] ∧
    (clearAroundRobot exOracleSome exCfgEmpty 2 2 exStateNoLayers).1.master.cells 0 0 = 0 ∧
    exStateNoLayers.master.cells 0 0 = 5 := by
  refine ⟨rfl, rfl, ?_, rfl⟩
  simp only [clearAroundRobot, exOracleSome, exPose, exCfgEmpty, exStateNoLayers, exGrid,
    setConvexPolygonCost, aroundRobotPoly, listMin, listMax, List.map, List.foldl,
    Grid.cellCenterX, Grid.cellCenterY]
  norm_num

/-- C1, amended: every layer whose trailing name segment is not in the
allow-list is left untouched (cells and dirty bounds) by
`clearExceptRegion`, and `clearAroundRobot` leaves the whole plugin layer
stack untouched: its only mutation is to the combined master costmap. -/
theorem nonClearable_layers_untouched (clearArea : ClearAreaImpl)
    (oracle : ℕ → Option Pose) (cfg : Config) (d windowSizeX windowSizeY : ℚ)
    (s : CostmapState) (i : ℕ) (l : Layer)
    (hl : s.layers[i]? = some l)
    (hnc : isClearable cfg (getLayerName l.name) = false) :
    (clearExceptRegion clearArea oracle cfg d s).1.layers[i]? = some l ∧
    (clearAroundRobot oracle cfg windowSizeX windowSizeY s).1.layers = s.layers := by
  constructor
  · cases hpos : oracle 0 with
    | none => simp [clearExceptRegion, hpos, hl]
    | some p =>
        simp [clearExceptRegion, hpos, processLayers_getElem, hl, hnc]
  · cases hpos : oracle 0 with
    | none => simp [clearAroundRobot, hpos]
    | some p => simp [clearAroundRobot, hpos]

/-- Witness for the amended C1: the non-clearable layer at index 1 of the
concrete state is untouched, and `clearAroundRobot` keeps the layer stack. -/
theorem nonClearable_layers_untouched_witness :
    (clearExceptRegion exClearArea exOracleSome exCfg 2 exState).1.layers[1]? =
      some exLayerStatic ∧
    (clearAroundRobot exOracleSome exCfg 3 3 exState).1.layers = exState.layers :=
  nonClearable_layers_untouched exClearArea exOracleSome exCfg 2 3 3 exState 1 exLayerStatic
    rfl (by decide)

/-- C10: the name used for allow-list matching is the whole layer name
when it holds no slash, and the substring after the last slash otherwise:
the kept segment holds no slash itself and the original name is the part
before that last slash, the slash, then the kept segment. -/
theorem getLayerName_trailing_segment (name : List Char) :
    ('/' ∉ name → getLayerName name = name) ∧
    ('/' ∈ name →
      name = beforeLastSlash name ++ '/' :: getLayerName name ∧
      '/' ∉ getLayerName name) := by
  constructor
  · intro h; simp [getLayerName, h]
  · intro h
    have hrev : '/' ∈ name.reverse := List.mem_reverse.mpr h
    obtain ⟨d, hd⟩ := dropWhile_slash_cons name.reverse hrev
    refine ⟨?_, ?_⟩
    · have hsplit := List.takeWhile_append_dropWhile
        (p := fun c : Char => c != '/') (l := name.reverse)
      conv_lhs => rw [← List.reverse_reverse name, ← hsplit, hd]
      unfold beforeLastSlash getLayerName
      rw [hd, if_pos h]
      simp [List.reverse_append]
    · unfold getLayerName
      rw [if_pos h]
      intro hmem
      have h2 : '/' ∈ name.reverse.takeWhile (fun c : Char => c != '/') :=
        List.mem_reverse.mp hmem
      have h3 := List.mem_takeWhile_imp h2
      simp at h3

/-- Witness for C10 on the concrete name g/ob. -/
theorem getLayerName_trailing_segment_witness :
    ['g', '/', 'o', 'b'] =
      beforeLastSlash ['g', '/', 'o', 'b'] ++ '/' :: getLayerName ['g', '/', 'o', 'b'] ∧
    '/' ∉ getLayerName ['g', '/', 'o', 'b'] :=
  (getLayerName_trailing_segment ['g', '/', 'o', 'b']).2 (by decide)

/-- C5: after an ExceptRegion clear reaches a layer (the per-layer pose
re-query succeeded), that layer's dirty bounds are exactly the full layer
extent, whatever the preserved polygon was — provided the bounds tracked
before were absent or lay within the layer extent (dirty bounds grow by
union, so a pre-existing rectangle sticking out of the layer could only
enlarge the result). -/
theorem clearLayerExceptRegion_bounds_full (clearArea : ClearAreaImpl) (l : Layer)
    (px py d : ℚ) (p : Pose)
    (hb : l.bounds = none ∨ ∃ b, l.bounds = some b ∧ Rect.within b l.fullExtent) :
    (clearLayerExceptRegion clearArea l px py d (some p)).bounds = some l.fullExtent := by
  rcases hb with h | ⟨b, hb, h1, h2, h3, h4⟩
  · simp [clearLayerExceptRegion, addExtraBounds, h]
  · simp only [clearLayerExceptRegion, hb, addExtraBounds]
    rw [min_eq_right h1, min_eq_right h2, max_eq_right h3, max_eq_right h4]

/-- Witness for C5 on a concrete layer with no prior dirty bounds. -/
theorem clearLayerExceptRegion_bounds_full_witness :
    (clearLayerExceptRegion exClearArea exLayerObstacles 0 0 2 (some exPose)).bounds =
      some exLayerObstacles.fullExtent :=
  clearLayerExceptRegion_bounds_full exClearArea exLayerObstacles 0 0 2 exPose (Or.inl rfl)

/-- C6: with the initial pose available, `clearExceptRegion` keeps the
layer stack's length and order, hands exactly the layers whose trailing
name segment is allow-listed to `clearLayerExceptRegion` (each with its
own pose re-query), and passes every other layer through untouched. -/
theorem clearExceptRegion_layer_selection (clearArea : ClearAreaImpl)
    (oracle : ℕ → Option Pose) (cfg : Config) (d : ℚ) (s : CostmapState) (p : Pose)
    (hpose : oracle 0 = some p) :
    (clearExceptRegion clearArea oracle cfg d s).1.layers.length = s.layers.length ∧
    ∀ i : ℕ, (clearExceptRegion clearArea oracle cfg d s).1.layers[i]? =
      (s.layers[i]?).map (fun l =>
        if isClearable cfg (getLayerName l.name)
        then clearLayerExceptRegion clearArea l p.x p.y d
               (oracle (1 + clearableCount cfg (s.layers.take i)))
        else l) := by
  constructor
  · simp [clearExceptRegion, hpose, processLayers_length]
  · intro i
    simp [clearExceptRegion, hpose, processLayers_getElem]

/-- Witness for C6: on the concrete state, the clearable layer at index 0
is handed to `clearLayerExceptRegion` and the stack length is kept. -/
theorem clearExceptRegion_layer_selection_witness :
    (clearExceptRegion exClearArea exOracleSome exCfg 2 exState).1.layers.length =
      exState.layers.length ∧
    (clearExceptRegion exClearArea exOracleSome exCfg 2 exState).1.layers[0]? =
      some (clearLayerExceptRegion exClearArea exLayerObstacles 0 0 2 (some exPose)) := by
  have h := clearExceptRegion_layer_selection exClearArea exOracleSome exCfg 2 exState
    exPose rfl
  refine ⟨h.1, ?_⟩
  rw [h.2 0]
  rfl

/-- C8: if the per-layer pose re-query fails for the clearable layer at
index `i`, that layer alone is skipped (returned untouched) while every
layer of the stack — before or after it — still gets exactly the
treatment its own allow-list test and pose re-query dictate; the failure
is not fatal to the whole operation. -/
theorem clearExceptRegion_recheck_failure_local (clearArea : ClearAreaImpl)
    (oracle : ℕ → Option Pose) (cfg : Config) (d : ℚ) (s : CostmapState) (p : Pose)
    (i : ℕ) (l : Layer)
    (hpose : oracle 0 = some p)
    (hl : s.layers[i]? = some l)
    (_hc : isClearable cfg (getLayerName l.name) = true)
    (hfail : oracle (1 + clearableCount cfg (s.layers.take i)) = none) :
    (clearExceptRegion clearArea oracle cfg d s).1.layers[i]? = some l ∧
    ∀ j : ℕ, (clearExceptRegion clearArea oracle cfg d s).1.layers[j]? =
      (s.layers[j]?).map (fun l2 =>
        if isClearable cfg (getLayerName l2.name)
        then clearLayerExceptRegion clearArea l2 p.x p.y d
               (oracle (1 + clearableCount cfg (s.layers.take j)))
        else l2) := by
  constructor
  · simp [clearExceptRegion, hpose, processLayers_getElem, hl, hfail,
      clearLayerExceptRegion_none]
  · intro j
    simp [clearExceptRegion, hpose, processLayers_getElem]

/-- Witness for C8: the clearable layer at index 0 is skipped when its
re-query (query 1) fails. -/
theorem clearExceptRegion_recheck_failure_local_witness :
    (clearExceptRegion exClearArea exOracleFailRecheck exCfg 2 exState).1.layers[0]? =
      some exLayerObstacles :=
  (clearExceptRegion_recheck_failure_local exClearArea exOracleFailRecheck exCfg 2 exState
    exPose 0 exLayerObstacles rfl rfl (by decide) rfl).1

lemma aroundRobotPoly_minMax (px py wx wy : ℚ) (hwx : 0 ≤ wx) (hwy : 0 ≤ wy) :
    listMin ((aroundRobotPoly px py wx wy).map Point.x) = px - wx / 2 ∧
    listMax ((aroundRobotPoly px py wx wy).map Point.x) = px + wx / 2 ∧
    listMin ((aroundRobotPoly px py wx wy).map Point.y) = py - wy / 2 ∧
    listMax ((aroundRobotPoly px py wx wy).map Point.y) = py + wy / 2 := by
  have hx : px - wx / 2 ≤ px + wx / 2 := by linarith
  have hy : py - wy / 2 ≤ py + wy / 2 := by linarith
  refine ⟨?_, ?_, ?_, ?_⟩ <;>
    simp [aroundRobotPoly, listMin, listMax, List.foldl, min_eq_left hx, min_eq_left hy,
      max_eq_right hx, max_eq_right hy, min_self, max_self, min_eq_right hx, min_eq_right hy,
      max_eq_left hx, max_eq_left hy]

/-- C7: with a valid pose and positive window dimensions,
`clearAroundRobot` passes the axis-aligned rectangle centered on the
robot position (built from the position only — no yaw enters) to the
convex-polygon cost-assignment primitive, which sets exactly the master
cells whose centers lie inside the rectangle to the configured reset
value and keeps every other cell. -/
theorem clearAroundRobot_rectangle (oracle : ℕ → Option Pose) (cfg : Config)
    (wx wy : ℚ) (s : CostmapState) (p : Pose)
    (hpose : oracle 0 = some p) (hwx : 0 < wx) (hwy : 0 < wy) :
    (clearAroundRobot oracle cfg wx wy s).1.master =
      setConvexPolygonCost s.master (aroundRobotPoly p.x p.y wx wy) cfg.resetValue ∧
    ∀ i j : ℕ, (clearAroundRobot oracle cfg wx wy s).1.master.cells i j =
      if p.x - wx / 2 ≤ s.master.cellCenterX i ∧ s.master.cellCenterX i ≤ p.x + wx / 2 ∧
         p.y - wy / 2 ≤ s.master.cellCenterY j ∧ s.master.cellCenterY j ≤ p.y + wy / 2
      then cfg.resetValue else s.master.cells i j := by
  obtain ⟨e1, e2, e3, e4⟩ := aroundRobotPoly_minMax p.x p.y wx wy (le_of_lt hwx) (le_of_lt hwy)
  constructor
  · simp [clearAroundRobot, hpose]
  · intro i j
    simp [clearAroundRobot, hpose, setConvexPolygonCost, e1, e2, e3, e4]

/-- Witness for C7: master cell (0,0) of the concrete state, whose center
(1/2, 1/2) lies inside the 2 by 2 window around the origin, is reset. -/
theorem clearAroundRobot_rectangle_witness :
    (clearAroundRobot exOracleSome exCfg 2 2 exState).1.master.cells 0 0 =
      exCfg.resetValue := by
  have h := (clearAroundRobot_rectangle exOracleSome exCfg 2 2 exState exPose rfl
    (by norm_num) (by norm_num)).2 0 0
  rw [h, if_pos]
  refine ⟨?_, ?_, ?_, ?_⟩ <;>
    norm_num [Grid.cellCenterX, Grid.cellCenterY, exState, exGrid, exPose]

/-- C9: for every rational world coordinate, including far-out-of-range
ones, the clamped world-to-grid conversion used by the ExceptRegion path
returns a cell index inside [0, width) x [0, height), provided the grid
has at least one cell in each dimension. -/
theorem worldToMapEnforceBounds_in_range (g : Grid) (wx wy : ℚ)
    (hx : 0 < g.sizeX) (hy : 0 < g.sizeY) :
    0 ≤ (worldToMapEnforceBounds g wx wy).1 ∧
    (worldToMapEnforceBounds g wx wy).1 < (g.sizeX : Int) ∧
    0 ≤ (worldToMapEnforceBounds g wx wy).2 ∧
    (worldToMapEnforceBounds g wx wy).2 < (g.sizeY : Int) := by
  have h1 : (0 : Int) < (g.sizeX : Int) := by exact_mod_cast hx
  have h2 : (0 : Int) < (g.sizeY : Int) := by exact_mod_cast hy
  dsimp only [worldToMapEnforceBounds]
  refine ⟨le_max_left _ _, ?_, le_max_left _ _, ?_⟩
  · exact max_lt h1 (lt_of_le_of_lt (min_le_right _ _) (by omega))
  · exact max_lt h2 (lt_of_le_of_lt (min_le_right _ _) (by omega))

/-- Witness for C9 on the concrete 2 by 2 grid at a point a million
meters outside it. -/
theorem worldToMapEnforceBounds_in_range_witness :
    0 ≤ (worldToMapEnforceBounds exGrid 1000000 (-1000000)).1 ∧
    (worldToMapEnforceBounds exGrid 1000000 (-1000000)).1 < (exGrid.sizeX : Int) ∧
    0 ≤ (worldToMapEnforceBounds exGrid 1000000 (-1000000)).2 ∧
    (worldToMapEnforceBounds exGrid 1000000 (-1000000)).2 < (exGrid.sizeY : Int) :=
  worldToMapEnforceBounds_in_range exGrid 1000000 (-1000000) (by decide) (by decide)

end ClearCostmap
